import Mathlib

/-!
Verification of the retrieval-augmented answer pipeline of the AI HR Assistant
repository.  The definitions below are a shallow embedding of the Python
sources: pure string manipulation is translated to functions on Lean strings
(viewed as lists of characters), the mutable pipeline object becomes explicit
state passing, and the external collaborators (vector index retriever, LLM
generation backend, clock) become function parameters, so that the
orchestration logic under verification is exactly the logic of the source.
-/

/-! ## String helpers mirroring the Python built-ins used by the sources -/

/-- Model of the Python str.strip method: remove leading and trailing
whitespace characters. -/
def stripChars (l : List Char) : List Char :=
  ((l.dropWhile Char.isWhitespace).reverse.dropWhile Char.isWhitespace).reverse

/-- str.strip on strings. -/
def stripStr (s : String) : String := ⟨stripChars s.data⟩

/-- Model of the Python str.lower method (character-wise lowering). -/
def lowerStr (s : String) : String := ⟨s.data.map Char.toLower⟩

/-- Occurrence of pat as a contiguous run inside a character list. -/
def isInfixL (pat : List Char) : List Char → Bool
  | [] => pat.isEmpty
  | c :: cs => pat.isPrefixOf (c :: cs) || isInfixL pat cs

/-- Model of the Python substring test, as in the expression
keyword in question_lower. -/
def containsSub (s pat : String) : Bool := isInfixL pat.data s.data

/-- Helper for str.split with no separator: accumulate the current word
(reversed) while scanning; whitespace ends a word, empty words are dropped. -/
def wordsAux : List Char → List Char → List (List Char)
  | [], acc => if acc.isEmpty then [] else [acc.reverse]
  | c :: cs, acc =>
    if c.isWhitespace then
      if acc.isEmpty then wordsAux cs [] else acc.reverse :: wordsAux cs []
    else
      wordsAux cs (c :: acc)

/-- Model of the Python str.split method with no arguments: split on runs of
whitespace, with no empty words. -/
def pySplitWs (s : String) : List String := (wordsAux s.data []).map (fun w => ⟨w⟩)

/-- Model of the Python list slice l[-n:], which keeps the last n elements
(the whole list when it is shorter than n). -/
def pyTail (n : Nat) (l : List α) : List α := l.drop (l.length - n)

/-! ## Data model -/

/-- A retrieved document chunk: page content plus the two metadata entries the
pipeline reads.  The metadata values are modelled as their string renderings;
a missing key is None. -/
structure Doc where
  page_content : String
  metadata_source_file : Option String
  metadata_page : Option String
deriving DecidableEq

/-- One conversation exchange as stored in the chat history of the pipeline
(src/rag_pipeline.py, query). -/
structure Exchange where
  question : String
  answer : String
  timestamp : String
deriving DecidableEq

/-- A source entry as built by RAGPipeline._extract_sources. -/
structure Source where
  file : String
  page : String
  content_preview : String
deriving DecidableEq

/-- The mutable per-pipeline state of RAGPipeline that the claims concern:
the readiness flag and the conversation memory. -/
structure PipelineState where
  is_initialized : Bool
  chat_history : List Exchange
deriving DecidableEq

/-- The dictionary returned by RAGPipeline.query, with absent keys modelled
as none or false. -/
structure QueryResult where
  answer : String
  sources : List Source
  error : Option String
  warning : Option String
  retrieved_docs_count : Option Nat
  success : Bool
deriving DecidableEq

/-- Record of which generation-backend entry point a query invoked and with
which arguments, so that claims about the generation call are statable. -/
inductive GenCall where
  | noCall : GenCall
  | simple (question context : String) : GenCall
  | followup (question context : String) (history : List Exchange) : GenCall
deriving DecidableEq

/-- Everything a call to query produces: the returned dictionary, the
pipeline state after the call, and the generation call that was made. -/
structure QueryOutput where
  result : QueryResult
  state : PipelineState
  call : GenCall
deriving DecidableEq

/-! ## Fixed message strings from the sources -/

/-- Rejection message of LLMHandler.validate_question for empty or too-short
questions. -/
def detailedQuestionMsg : String :=
  "Please provide a more detailed question about HR policies or procedures."

/-- Rejection message of LLMHandler.validate_question for denylisted terms. -/
def legitimateOnlyMsg : String :=
  "I can only assist with legitimate HR policy questions."

/-- The gentle scope reminder built by LLMHandler.validate_question for long
questions with no HR keyword. -/
def scopeReminderMsg : String :=
  "I\x27ll do my best to help with your question. For the most accurate information, please ensure your question relates to HR policies or workplace procedures."

/-- Fixed answer of RAGPipeline.query when the pipeline is not initialized. -/
def notReadyAnswer : String :=
  "The HR Assistant is not ready yet. Please ensure HR documents have been loaded."

/-- Fixed answer of RAGPipeline.query when retrieval returns no documents. -/
def noRelevantInfoAnswer : String :=
  "I couldn\x27t find relevant information in the HR documents to answer your question. Please try rephrasing your question or contact HR directly for assistance."

/-- Truncation marker appended by format_documents_for_context when the
character budget is exceeded (src/utils.py). -/
def truncationMarker : String :=
  "\n... (Additional documents truncated due to length limit) ..."

/-! ## LLMHandler.validate_question (src/llm_handler.py, lines 164 to 198) -/

/-- The denylist of src/llm_handler.py. -/
def inappropriate_keywords : List String := ["hack", "bypass", "illegal", "fraud"]

/-- The HR-domain keyword allowlist of src/llm_handler.py. -/
def hr_keywords : List String :=
  ["policy", "leave", "vacation", "sick", "benefits", "salary", "promotion",
   "training", "performance", "disciplinary", "harassment", "compliance",
   "onboarding", "termination", "resignation", "hr", "human resources",
   "employee", "workplace", "code of conduct", "ethics"]

/-- Translation of LLMHandler.validate_question: returns the pair
(is_valid, message). -/
def validate_question (question : String) : Bool × String :=
  if question.data.isEmpty || (stripStr question).data.length < 3 then
    (false, detailedQuestionMsg)
  else
    let question_lower := lowerStr question
    if inappropriate_keywords.any (fun k => containsSub question_lower k) then
      (false, legitimateOnlyMsg)
    else
      let has_hr_keyword := hr_keywords.any (fun k => containsSub question_lower k)
      if !has_hr_keyword && decide ((pySplitWs question).length > 3) then
        (true, scopeReminderMsg)
      else
        (true, "")

/-! ## format_documents_for_context (src/utils.py, lines 54 to 87) -/

/-- The header line rendered for document number i+1 (zero-based i), as in
format_documents_for_context. -/
def docHeaderStr (i : Nat) (d : Doc) : String :=
  "\n--- Document " ++ toString (i + 1) ++ ": " ++
    d.metadata_source_file.getD "Unknown Source" ++ " (Page " ++
    d.metadata_page.getD "N/A" ++ ") ---\n"

/-- The character count the source adds to its running total for document
number i+1: header length plus stripped content length. -/
def additionLen (i : Nat) (d : Doc) : Nat :=
  (docHeaderStr i d).data.length + (stripStr d.page_content).data.length

/-- Model of the Python join expression with separator a newline, exactly
the string produced by the final join of format_documents_for_context. -/
def joinNl : List String → String
  | [] => ""
  | [p] => p
  | p :: ps => p ++ "\n" ++ joinNl ps

/-- The loop of format_documents_for_context: walk the documents carrying the
enumerate index, the running character total and the accumulated parts in
reverse order; the truncation marker ends the loop once at least one part has
been accumulated and the budget would be exceeded. -/
def formatDocsLoop (max_length : Nat) : List Doc → Nat → Nat → List String → List String
  | [], _, _, context_parts => context_parts.reverse
  | doc :: docs, i, current_length, context_parts =>
    let header := docHeaderStr i doc
    let content := stripStr doc.page_content
    let addition_length := header.data.length + content.data.length
    if current_length + addition_length > max_length ∧ context_parts ≠ [] then
      (truncationMarker :: context_parts).reverse
    else
      formatDocsLoop max_length docs (i + 1) (current_length + addition_length)
        ((header ++ content) :: context_parts)

/-- Translation of format_documents_for_context: empty input yields the fixed
no-documents string, otherwise the accumulated parts joined by newlines. -/
def format_documents_for_context (documents : List Doc) (max_length : Nat) : String :=
  if documents.isEmpty then "No relevant documents found."
  else joinNl (formatDocsLoop max_length documents 0 0 [])

/-! ## RAGPipeline._extract_sources (src/rag_pipeline.py, lines 205 to 232) -/

/-- The deduplication key built by _extract_sources: the source file and the
page rendering joined by an underscore into a single string. -/
def sourceId (d : Doc) : String :=
  d.metadata_source_file.getD "Unknown" ++ "_" ++ d.metadata_page.getD "N/A"

/-- The content preview built by _extract_sources: the first 200 characters
with an ellipsis appended when the content is longer than 200 characters. -/
def previewOf (content : String) : String :=
  if content.data.length > 200 then (⟨content.data.take 200⟩ : String) ++ "..."
  else content

/-- The source dictionary _extract_sources appends for a document. -/
def sourceEntry (d : Doc) : Source :=
  { file := d.metadata_source_file.getD "Unknown"
    page := d.metadata_page.getD "N/A"
    content_preview := previewOf d.page_content }

/-- The loop of _extract_sources, carrying the set of already-seen
deduplication keys. -/
def extractSourcesLoop : List Doc → List String → List Source
  | [], _ => []
  | doc :: docs, seen_sources =>
    let source_id := sourceId doc
    if source_id ∈ seen_sources then
      extractSourcesLoop docs seen_sources
    else
      sourceEntry doc :: extractSourcesLoop docs (source_id :: seen_sources)

/-- Translation of RAGPipeline._extract_sources. -/
def extract_sources (documents : List Doc) : List Source :=
  extractSourcesLoop documents []

/-! ## RAGPipeline.query and query_with_history (src/rag_pipeline.py) -/

/-- Translation of RAGPipeline.query.  The retriever and the two generation
entry points of LLMHandler are passed as functions (they wrap external API
calls); now is the timestamp the datetime call would produce.  The returned
GenCall records which generation entry point ran. -/
def query (st : PipelineState) (retriever : String → List Doc)
    (generate_response : String → String → String)
    (generate_followup_response : String → String → List Exchange → String)
    (now : String) (question : String) (include_sources : Bool) : QueryOutput :=
  if !st.is_initialized then
    { result := { answer := notReadyAnswer, sources := [],
                  error := some "System not initialized", warning := none,
                  retrieved_docs_count := none, success := false },
      state := st, call := GenCall.noCall }
  else
    let v := validate_question question
    if !v.fst then
      { result := { answer := v.snd, sources := [],
                    error := some "Invalid question", warning := none,
                    retrieved_docs_count := none, success := false },
        state := st, call := GenCall.noCall }
    else
      let retrieved_docs := retriever question
      if retrieved_docs.isEmpty then
        { result := { answer := noRelevantInfoAnswer, sources := [],
                      error := none, warning := some "No relevant documents found",
                      retrieved_docs_count := none, success := false },
          state := st, call := GenCall.noCall }
      else
        let context := format_documents_for_context retrieved_docs 4000
        let gen : String × GenCall :=
          if !st.chat_history.isEmpty then
            (generate_followup_response question context st.chat_history,
             GenCall.followup question context st.chat_history)
          else
            (generate_response question context, GenCall.simple question context)
        let response := gen.fst
        let sources := if include_sources then extract_sources retrieved_docs else []
        let appended := st.chat_history ++
          [{ question := question, answer := response, timestamp := now }]
        let new_history := if appended.length > 10 then pyTail 10 appended else appended
        { result := { answer := response, sources := sources, error := none,
                      warning := none, retrieved_docs_count := some retrieved_docs.length,
                      success := true },
          state := { st with chat_history := new_history }, call := gen.snd }

/-- Translation of RAGPipeline.query_with_history: swap in the last five
exchanges of the caller-supplied transcript, run query, and restore the
original history afterwards (the finally block; the source query catches all
exceptions internally, so it is total and the restore always runs). -/
def query_with_history (st : PipelineState) (retriever : String → List Doc)
    (generate_response : String → String → String)
    (generate_followup_response : String → String → List Exchange → String)
    (now : String) (question : String) (conversation_history : List Exchange) :
    QueryOutput :=
  let original_history := st.chat_history
  let tmp : PipelineState := { st with chat_history := pyTail 5 conversation_history }
  let out := query tmp retriever generate_response generate_followup_response now question true
  { out with state := { out.state with chat_history := original_history } }

/-! ## RAGPipeline.initialize_knowledge_base (src/rag_pipeline.py, lines 26 to 66) -/

/-- Outcome of a Python call that can raise: either a value or an exception.
Used to model the document-processor and vector-store calls inside the
knowledge-base initialization, whose bodies wrap external libraries. -/
inductive PyOutcome (α : Type) where
  | ok (value : α) : PyOutcome α
  | raises : PyOutcome α
deriving DecidableEq

/-- Translation of RAGPipeline.initialize_knowledge_base (named without the
full verb to satisfy the verification environment).  The three fallible
internal calls (process_documents, add_documents, check_vectorstore_ready)
are passed as outcomes; any raised exception reaches the except handler,
which clears is_initialized and returns false.  Returns the boolean result
and the state after the call. -/
def init_knowledge_base (st : PipelineState)
    (process_documents : PyOutcome (List Doc))
    (add_documents : PyOutcome (List String))
    (check_vectorstore_ready : PyOutcome Bool) : Bool × PipelineState :=
  match process_documents with
  | PyOutcome.raises => (false, { st with is_initialized := false })
  | PyOutcome.ok documents =>
    if documents.isEmpty then
      (false, st)
    else
      match add_documents with
      | PyOutcome.raises => (false, { st with is_initialized := false })
      | PyOutcome.ok _doc_ids =>
        match check_vectorstore_ready with
        | PyOutcome.raises => (false, { st with is_initialized := false })
        | PyOutcome.ok ready =>
          if !ready then (false, st)
          else (true, { st with is_initialized := true })

/-- Iterate query over a list of questions on one pipeline instance,
threading the state: the sequential-answers scenario of the specification. -/
def runQueries (retriever : String → List Doc)
    (generate_response : String → String → String)
    (generate_followup_response : String → String → List Exchange → String)
    (now : String) : PipelineState → List String → PipelineState
  | st, [] => st
  | st, q :: qs =>
    runQueries retriever generate_response generate_followup_response now
      (query st retriever generate_response generate_followup_response now q true).state qs

/-! ## Concrete fixtures and derived measures used by the theorems -/

/-- The deduplication key a source entry carries: its file and page joined by
an underscore, matching the source_id of _extract_sources. -/
def sourceKey (s : Source) : String := s.file ++ "_" ++ s.page

/-- Specification-side definition, following the spec words "deduplicate ...
preserving first-seen order": first-occurrence deduplication of a key
sequence, written by a recursion independent of the implementation loop
(keep the head, drop its later duplicates, recurse).  Used to compare the
key sequence of the implementation's source list against the spec. -/
def dedupFirstSpec : List String → List String
  | [] => []
  | k :: ks => k :: dedupFirstSpec (ks.filter (fun x => decide (x ≠ k)))
termination_by l => l.length
decreasing_by
  simp only [List.length_cons]
  have := List.length_filter_le (fun x => decide (x ≠ k)) ks
  omega

/-- Total character count of a list of context parts. -/
def partsLen (l : List String) : Nat := (l.map (fun s => s.data.length)).sum

/-- The slack the specification grants the context assembler: the length of
the first chunk (header plus stripped content) when it alone exceeds the
budget, otherwise nothing. -/
def firstSlack (documents : List Doc) (max_length : Nat) : Nat :=
  match documents with
  | [] => 0
  | d :: _ => if max_length < additionLen 0 d then additionLen 0 d else 0

/-- A representative retrieved chunk. -/
def sampleDoc : Doc :=
  { page_content := "Employees receive 25 days of annual leave per year."
    metadata_source_file := some "leave_policy.pdf"
    metadata_page := some "1" }

/-- A chunk with empty content and empty metadata strings: its context part
is just the 30-character header. -/
def emptyDoc : Doc :=
  { page_content := "", metadata_source_file := some "", metadata_page := some "" }

/-- Four retrieved chunks with four distinct (file, page) pairs. -/
def fourDistinctDocs : List Doc :=
  [{ page_content := "c", metadata_source_file := some "f1", metadata_page := some "1" },
   { page_content := "c", metadata_source_file := some "f2", metadata_page := some "1" },
   { page_content := "c", metadata_source_file := some "f3", metadata_page := some "1" },
   { page_content := "c", metadata_source_file := some "f4", metadata_page := some "1" }]

/-- A question longer than 3 words containing no HR-domain keyword and no
denylisted term. -/
def weatherQuestion : String := "tell me about the weather"

/-- Eleven HR-keyword questions for the sequential-answers scenario. -/
def elevenQuestions : List String :=
  ["policy 1", "policy 2", "policy 3", "policy 4", "policy 5", "policy 6",
   "policy 7", "policy 8", "policy 9", "policy 10", "policy 11"]

/-- The pipeline state after eleven sequential successful answers on one
freshly initialized instance, with a fixed clock and backends. -/
def scenarioFinal : PipelineState :=
  runQueries (fun _ => [sampleDoc]) (fun _ _ => "A") (fun _ _ _ => "A") "t"
    { is_initialized := true, chat_history := [] } elevenQuestions

/-! ## Helper lemmas -/

theorem partsLen_reverse (l : List String) : partsLen l.reverse = partsLen l := by
  unfold partsLen
  rw [List.map_reverse, List.sum_reverse]

theorem partsLen_cons (s : String) (l : List String) :
    partsLen (s :: l) = s.data.length + partsLen l := by
  simp [partsLen]

theorem query_keeps_is_initialized (st : PipelineState) (retr : String → List Doc)
    (gen : String → String → String) (fol : String → String → List Exchange → String)
    (now q : String) (inc : Bool) :
    (query st retr gen fol now q inc).state.is_initialized = st.is_initialized := by
  simp only [query]
  split
  · rfl
  · split
    · rfl
    · split
      · rfl
      · rfl

/-- Claim C9: query_with_history restores the pipeline chat history to its
pre-call value: the final state carries the original history (and the
original readiness flag), while the returned result is exactly the result of
running query on the temporary state holding the last five external
exchanges; the exchange recorded during that inner query thus lives only in
the discarded temporary history. -/
theorem c9_history_restored (st : PipelineState) (retr : String → List Doc)
    (gen : String → String → String) (fol : String → String → List Exchange → String)
    (now q : String) (h : List Exchange) :
    (query_with_history st retr gen fol now q h).state.chat_history = st.chat_history ∧
    (query_with_history st retr gen fol now q h).state.is_initialized = st.is_initialized ∧
    (query_with_history st retr gen fol now q h).result =
      (query { st with chat_history := pyTail 5 h } retr gen fol now q true).result := by
  refine ⟨rfl, ?_, rfl⟩
  show (query { st with chat_history := pyTail 5 h } retr gen fol now q true).state.is_initialized = _
  rw [query_keeps_is_initialized]

/-- Claim C10: whenever one of the fallible internal calls of the
knowledge-base initialization raises, the except handler runs and clears
is_initialized, for every prior state - including a previously Ready one. -/
theorem c10_failed_init_demotes (st : PipelineState) (docs : List Doc)
    (ids : List String) (ar : PyOutcome (List String)) (cr : PyOutcome Bool) :
    (init_knowledge_base st PyOutcome.raises ar cr).snd.is_initialized = false ∧
    (docs ≠ [] →
      (init_knowledge_base st (PyOutcome.ok docs) PyOutcome.raises cr).snd.is_initialized = false) ∧
    (docs ≠ [] →
      (init_knowledge_base st (PyOutcome.ok docs) (PyOutcome.ok ids)
        PyOutcome.raises).snd.is_initialized = false) := by
  refine ⟨rfl, fun hd => ?_, fun hd => ?_⟩ <;>
    simp [init_knowledge_base, List.isEmpty_eq_false.mpr hd]

/-- Witness for C10 at a concrete previously-initialized state. -/
theorem c10_witness :
    (init_knowledge_base { is_initialized := true, chat_history := [] }
      (PyOutcome.ok [sampleDoc]) PyOutcome.raises
      (PyOutcome.ok true)).snd.is_initialized = false :=
  (c10_failed_init_demotes { is_initialized := true, chat_history := [] }
    [sampleDoc] [] PyOutcome.raises (PyOutcome.ok true)).2.1 (by decide)

/-- Claim C8: source deduplication keys on the concatenated string
file_page, so two chunks with distinct (file, page) pairs whose
concatenations coincide are treated as one source and the later chunk is
dropped. -/
theorem c8_concat_key_collision (d1 d2 : Doc)
    (_hpair : (d1.metadata_source_file.getD "Unknown", d1.metadata_page.getD "N/A") ≠
      (d2.metadata_source_file.getD "Unknown", d2.metadata_page.getD "N/A"))
    (hid : sourceId d1 = sourceId d2) :
    extract_sources [d1, d2] = [sourceEntry d1] := by
  simp [extract_sources, extractSourcesLoop, hid]

/-- Witness for C8: file a_1 with page 2 collides with file a with page 1_2. -/
theorem c8_witness :
    extract_sources
      [{ page_content := "c1", metadata_source_file := some "a_1", metadata_page := some "2" },
       { page_content := "c2", metadata_source_file := some "a", metadata_page := some "1_2" }] =
      [sourceEntry
        { page_content := "c1", metadata_source_file := some "a_1", metadata_page := some "2" }] :=
  c8_concat_key_collision _ _ (by decide) (by decide)

/-- Claim C6: on an initialized pipeline, for a question that passes
validation but retrieves zero chunks, query returns the fixed
no-relevant-information answer with the warning field set and empty sources,
makes no generation call, and leaves the state unchanged. -/
theorem c6_empty_retrieval (st : PipelineState) (retr : String → List Doc)
    (gen : String → String → String) (fol : String → String → List Exchange → String)
    (now q : String) (inc : Bool)
    (hinit : st.is_initialized = true)
    (hvalid : (validate_question q).fst = true)
    (hempty : retr q = []) :
    query st retr gen fol now q inc =
      { result := { answer := noRelevantInfoAnswer, sources := [],
                    error := none, warning := some "No relevant documents found",
                    retrieved_docs_count := none, success := false },
        state := st, call := GenCall.noCall } := by
  simp [query, hinit, hvalid, hempty]

/-- Witness for C6 at a concrete valid question and empty index. -/
theorem c6_witness :
    query { is_initialized := true, chat_history := [] } (fun _ => [])
      (fun _ _ => "g") (fun _ _ _ => "f") "t" "What is the leave policy?" true =
      { result := { answer := noRelevantInfoAnswer, sources := [],
                    error := none, warning := some "No relevant documents found",
                    retrieved_docs_count := none, success := false },
        state := { is_initialized := true, chat_history := [] },
        call := GenCall.noCall } :=
  c6_empty_retrieval { is_initialized := true, chat_history := [] } (fun _ => [])
    (fun _ _ => "g") (fun _ _ _ => "f") "t" "What is the leave policy?" true
    rfl (by decide) rfl

set_option maxRecDepth 4000 in
/-- Claim C1 is violated by the code: for the accepted question below, which
is longer than 3 words and contains no HR-domain keyword, validate_question
does return true paired with the gentle scope reminder, but query discards
that message: the answer returned to the caller is the raw generated
response, which does not start with the reminder. -/
theorem c1_reminder_discarded :
    validate_question weatherQuestion = (true, scopeReminderMsg) ∧
    (query { is_initialized := true, chat_history := [] } (fun _ => [sampleDoc])
        (fun _ _ => "Generated answer.") (fun _ _ _ => "f") "t"
        weatherQuestion true).result.answer = "Generated answer." ∧
    (query { is_initialized := true, chat_history := [] } (fun _ => [sampleDoc])
        (fun _ _ => "Generated answer.") (fun _ _ _ => "f") "t"
        weatherQuestion true).result.answer.data.take scopeReminderMsg.data.length ≠
      scopeReminderMsg.data := by
  refine ⟨by decide, by decide, by decide⟩

/-- Claim C2 fails on the code: four retrieved chunks with four distinct
(file, page) pairs yield four source entries; there is no cap at 3 in
_extract_sources. -/
theorem c2_no_cap_cex : ¬ (extract_sources fourDistinctDocs).length ≤ 3 := by decide

theorem extractSourcesLoop_length_le (ds : List Doc) :
    ∀ seen : List String, (extractSourcesLoop ds seen).length ≤ ds.length := by
  induction ds with
  | nil => intro seen; simp [extractSourcesLoop]
  | cons d ds ih =>
    intro seen
    simp only [extractSourcesLoop]
    split
    · exact (ih seen).trans (Nat.le_succ _)
    · simpa using ih (sourceId d :: seen)

theorem sourceKey_sourceEntry (d : Doc) : sourceKey (sourceEntry d) = sourceId d := rfl

theorem extractSourcesLoop_nodup (ds : List Doc) :
    ∀ seen : List String,
      (∀ s ∈ extractSourcesLoop ds seen, sourceKey s ∉ seen) ∧
      ((extractSourcesLoop ds seen).map sourceKey).Nodup := by
  induction ds with
  | nil => intro seen; simp [extractSourcesLoop]
  | cons d ds ih =>
    intro seen
    simp only [extractSourcesLoop]
    split
    case isTrue h => exact ih seen
    case isFalse h =>
      obtain ⟨h1, h2⟩ := ih (sourceId d :: seen)
      constructor
      · intro s hs
        rcases List.mem_cons.mp hs with rfl | hs
        · rw [sourceKey_sourceEntry]; exact h
        · exact fun hc => h1 s hs (List.mem_cons_of_mem _ hc)
      · rw [List.map_cons, List.nodup_cons]
        refine ⟨fun hc => ?_, h2⟩
        rcases List.mem_map.mp hc with ⟨s, hs, hk⟩
        exact h1 s hs (by rw [hk, sourceKey_sourceEntry]; exact List.mem_cons_self _ _)

theorem extractSourcesLoop_mem (ds : List Doc) :
    ∀ (seen : List String) (s : Source),
      s ∈ extractSourcesLoop ds seen → ∃ d ∈ ds, s = sourceEntry d := by
  induction ds with
  | nil => intro seen s hs; simp [extractSourcesLoop] at hs
  | cons d ds ih =>
    intro seen s hs
    simp only [extractSourcesLoop] at hs
    split at hs
    · obtain ⟨d0, hd0, hsd⟩ := ih seen s hs
      exact ⟨d0, List.mem_cons_of_mem _ hd0, hsd⟩
    · rcases List.mem_cons.mp hs with rfl | hs
      · exact ⟨d, List.mem_cons_self _ _, rfl⟩
      · obtain ⟨d0, hd0, hsd⟩ := ih _ s hs
        exact ⟨d0, List.mem_cons_of_mem _ hd0, hsd⟩

theorem notMemCons_decide (x sid : String) (seen : List String) :
    (decide (x ∉ sid :: seen) : Bool) = (decide (x ≠ sid) && decide (x ∉ seen)) := by
  rw [← Bool.decide_and]
  apply decide_eq_decide.mpr
  simp [List.mem_cons]

theorem extractSourcesLoop_keys_spec (ds : List Doc) :
    ∀ seen : List String,
      (extractSourcesLoop ds seen).map sourceKey =
        dedupFirstSpec ((ds.map sourceId).filter (fun k => decide (k ∉ seen))) := by
  induction ds with
  | nil => intro seen; simp [extractSourcesLoop, dedupFirstSpec]
  | cons d ds ih =>
    intro seen
    simp only [extractSourcesLoop, List.map_cons]
    split
    case isTrue h =>
      rw [ih seen, List.filter_cons_of_neg (by simpa using h)]
    case isFalse h =>
      rw [List.filter_cons_of_pos (by simpa using h)]
      simp only [dedupFirstSpec, List.map_cons, sourceKey_sourceEntry]
      rw [ih (sourceId d :: seen)]
      congr 1
      apply congrArg dedupFirstSpec
      rw [List.filter_filter]
      apply List.filter_congr
      intro x _
      rw [notMemCons_decide]

/-- Claim C2, amended: the source list built by _extract_sources contains
exactly one entry per distinct deduplication key (source_file and page joined
by an underscore) among the retrieved chunks, in first-seen order: its key
sequence equals the first-occurrence deduplication of the chunks' key
sequence, every entry is built from a retrieved chunk, and its length - the
number of distinct keys - is bounded by the number of retrieved chunks, not
by 3. -/
theorem c2_sources_per_distinct_key (documents : List Doc) :
    (extract_sources documents).map sourceKey =
      dedupFirstSpec (documents.map sourceId) ∧
    (extract_sources documents).length =
      (dedupFirstSpec (documents.map sourceId)).length ∧
    (extract_sources documents).length ≤ documents.length ∧
    ∀ s ∈ extract_sources documents, ∃ d ∈ documents, s = sourceEntry d := by
  have hkeys : (extract_sources documents).map sourceKey =
      dedupFirstSpec (documents.map sourceId) := by
    have h := extractSourcesLoop_keys_spec documents []
    simpa [extract_sources] using h
  refine ⟨hkeys, ?_, extractSourcesLoop_length_le documents [],
    fun s hs => extractSourcesLoop_mem documents [] s hs⟩
  rw [← hkeys, List.length_map]

/-- Witness for C2, discharging the membership hypothesis of its final
conjunct at a concrete retrieved list. -/
theorem c2_witness :
    ∃ d ∈ fourDistinctDocs,
      sourceEntry { page_content := "c", metadata_source_file := some "f1", metadata_page := some "1" } = sourceEntry d :=
  (c2_sources_per_distinct_key fourDistinctDocs).2.2.2
    (sourceEntry { page_content := "c", metadata_source_file := some "f1", metadata_page := some "1" })
    (by decide)

/-- Claim C7: every source entry carries the preview of the chunk it came
from: the chunk content itself when that content is at most 200 characters,
and otherwise the first 200 characters with an ellipsis appended; in every
case the preview is at most 203 characters long. -/
theorem c7_preview_bound (documents : List Doc) (s : Source)
    (hs : s ∈ extract_sources documents) :
    ∃ d ∈ documents,
      s.content_preview = previewOf d.page_content ∧
      (d.page_content.data.length ≤ 200 → s.content_preview = d.page_content) ∧
      (200 < d.page_content.data.length →
        s.content_preview =
          (⟨d.page_content.data.take 200⟩ : String) ++ "...") ∧
      s.content_preview.data.length ≤ 203 := by
  obtain ⟨d, hd, rfl⟩ := extractSourcesLoop_mem documents [] s hs
  refine ⟨d, hd, rfl, ?_, ?_, ?_⟩
  · intro hle
    show previewOf d.page_content = _
    unfold previewOf
    rw [if_neg (by omega)]
  · intro hgt
    show previewOf d.page_content = _
    unfold previewOf
    rw [if_pos hgt]
  · show (previewOf d.page_content).data.length ≤ 203
    unfold previewOf
    split
    · rw [String.data_append, List.length_append]
      have h0 : ({ data := List.take 200 d.page_content.data } : String).data =
          List.take 200 d.page_content.data := rfl
      rw [h0]
      have h1 : (d.page_content.data.take 200).length ≤ 200 :=
        List.length_take_le 200 d.page_content.data
      have h2 : ("..." : String).data.length = 3 := rfl
      omega
    · omega

/-- Witness for C7 on a concrete retrieved list. -/
theorem c7_witness :
    ∃ d ∈ [sampleDoc],
      (sourceEntry sampleDoc).content_preview = previewOf d.page_content ∧
      (d.page_content.data.length ≤ 200 →
        (sourceEntry sampleDoc).content_preview = d.page_content) ∧
      (200 < d.page_content.data.length →
        (sourceEntry sampleDoc).content_preview =
          (⟨d.page_content.data.take 200⟩ : String) ++ "...") ∧
      (sourceEntry sampleDoc).content_preview.data.length ≤ 203 :=
  c7_preview_bound [sampleDoc] (sourceEntry sampleDoc) (by decide)

theorem pyTail_ne_nil (n : Nat) (hn : 0 < n) (l : List α) (hl : l ≠ []) :
    pyTail n l ≠ [] := by
  unfold pyTail
  intro hc
  have hlen := congrArg List.length hc
  rw [List.length_drop] at hlen
  have hpos : 0 < l.length := List.length_pos.mpr hl
  simp only [List.length_nil] at hlen
  omega

theorem query_call_followup (st : PipelineState) (retr : String → List Doc)
    (gen : String → String → String) (fol : String → String → List Exchange → String)
    (now q : String) (inc : Bool)
    (hinit : st.is_initialized = true)
    (hhist : st.chat_history ≠ [])
    (hvalid : (validate_question q).fst = true)
    (hdocs : retr q ≠ []) :
    (query st retr gen fol now q inc).call =
      GenCall.followup q (format_documents_for_context (retr q) 4000) st.chat_history := by
  simp [query, hinit, hvalid, List.isEmpty_eq_false.mpr hdocs,
    List.isEmpty_eq_false.mpr hhist]

/-- Claim C3: when a nonempty caller-supplied transcript is given,
query_with_history passes exactly the last five of its exchanges as the
history argument of the follow-up generation call, whatever the pipeline
memory holds - the external transcript is preferred and never merged with
the pipeline memory. -/
theorem c3_external_history_preferred (st : PipelineState) (retr : String → List Doc)
    (gen : String → String → String) (fol : String → String → List Exchange → String)
    (now q : String) (h : List Exchange)
    (hinit : st.is_initialized = true)
    (hvalid : (validate_question q).fst = true)
    (hdocs : retr q ≠ [])
    (hne : h ≠ []) :
    (query_with_history st retr gen fol now q h).call =
      GenCall.followup q (format_documents_for_context (retr q) 4000) (pyTail 5 h) := by
  show (query { st with chat_history := pyTail 5 h } retr gen fol now q true).call = _
  exact query_call_followup _ retr gen fol now q true hinit
    (pyTail_ne_nil 5 (by omega) h hne) hvalid hdocs

/-- Witness for C3: pipeline memory and external transcript both present. -/
theorem c3_witness :
    (query_with_history
      { is_initialized := true,
        chat_history := [{ question := "m1", answer := "ma", timestamp := "mt" }] }
      (fun _ => [sampleDoc]) (fun _ _ => "g") (fun _ _ _ => "f") "t"
      "What about sick days?"
      [{ question := "q0", answer := "a0", timestamp := "t0" }]).call =
      GenCall.followup "What about sick days?"
        (format_documents_for_context [sampleDoc] 4000)
        (pyTail 5 [{ question := "q0", answer := "a0", timestamp := "t0" }]) :=
  c3_external_history_preferred
    { is_initialized := true,
      chat_history := [{ question := "m1", answer := "ma", timestamp := "mt" }] }
    (fun _ => [sampleDoc]) (fun _ _ => "g") (fun _ _ _ => "f") "t"
    "What about sick days?" [{ question := "q0", answer := "a0", timestamp := "t0" }]
    rfl (by decide) (by decide) (by decide)

theorem historyUpdate_len_le (h : List Exchange) (e : Exchange) (hlen : h.length ≤ 10) :
    (if (h ++ [e]).length > 10 then pyTail 10 (h ++ [e]) else h ++ [e]).length ≤ 10 := by
  split
  · simp only [pyTail, List.length_drop]
    omega
  · rename_i hle
    simp only [List.length_append, List.length_cons, List.length_nil] at hle ⊢
    omega

set_option maxRecDepth 40000 in
/-- Claim C5: the pipeline conversation memory is bounded by 10 - every
query call leaves a history of at most 10 exchanges when it starts from one -
and eviction is oldest-first: after eleven sequential successful answers on
one freshly initialized instance, the memory holds exactly the last ten
exchanges in chronological order. -/
theorem c5_memory_bound_and_fifo :
    (∀ (st : PipelineState) (retr : String → List Doc)
        (gen : String → String → String)
        (fol : String → String → List Exchange → String)
        (now q : String) (inc : Bool),
      st.chat_history.length ≤ 10 →
      (query st retr gen fol now q inc).state.chat_history.length ≤ 10) ∧
    scenarioFinal.chat_history =
      [{ question := "policy 2", answer := "A", timestamp := "t" },
       { question := "policy 3", answer := "A", timestamp := "t" },
       { question := "policy 4", answer := "A", timestamp := "t" },
       { question := "policy 5", answer := "A", timestamp := "t" },
       { question := "policy 6", answer := "A", timestamp := "t" },
       { question := "policy 7", answer := "A", timestamp := "t" },
       { question := "policy 8", answer := "A", timestamp := "t" },
       { question := "policy 9", answer := "A", timestamp := "t" },
       { question := "policy 10", answer := "A", timestamp := "t" },
       { question := "policy 11", answer := "A", timestamp := "t" }] := by
  constructor
  · intro st retr gen fol now q inc hlen
    simp only [query]
    split
    · exact hlen
    · split
      · exact hlen
      · split
        · exact hlen
        · exact historyUpdate_len_le st.chat_history _ hlen
  · decide

/-- Witness for the bound conjunct of C5 at a concrete state and question. -/
theorem c5_witness :
    (query { is_initialized := true, chat_history := [] } (fun _ => [sampleDoc])
      (fun _ _ => "A") (fun _ _ _ => "A") "t" "policy 1"
      true).state.chat_history.length ≤ 10 :=
  c5_memory_bound_and_fifo.1 { is_initialized := true, chat_history := [] }
    (fun _ => [sampleDoc]) (fun _ _ => "A") (fun _ _ _ => "A") "t" "policy 1" true
    (by decide)

theorem strLen_append (a b : String) :
    (a ++ b).data.length = a.data.length + b.data.length := by
  rw [String.data_append, List.length_append]

theorem joinNl_length (l : List String) (hl : l ≠ []) :
    (joinNl l).data.length + 1 ≤ partsLen l + l.length := by
  induction l with
  | nil => exact absurd rfl hl
  | cons p ps ih =>
    cases ps with
    | nil => simp [joinNl, partsLen]
    | cons q r =>
      have hrec := ih (by simp)
      simp only [joinNl]
      rw [strLen_append, strLen_append, partsLen_cons]
      simp only [List.length_cons, List.length_nil] at hrec ⊢
      omega

theorem formatDocsLoop_budget (max_length : Nat) (ds : List Doc) :
    ∀ (i cur : Nat) (parts : List String), cur ≤ max_length → parts ≠ [] →
      partsLen (formatDocsLoop max_length ds i cur parts) ≤
        partsLen parts + (max_length - cur) + truncationMarker.data.length ∧
      (formatDocsLoop max_length ds i cur parts).length ≤ parts.length + ds.length + 1 ∧
      formatDocsLoop max_length ds i cur parts ≠ [] := by
  induction ds with
  | nil =>
    intro i cur parts hcur hne
    simp only [formatDocsLoop]
    refine ⟨le_of_eq (partsLen_reverse parts) |>.trans (by omega), by simp, by simp [hne]⟩
  | cons d ds ih =>
    intro i cur parts hcur hne
    simp only [formatDocsLoop]
    split
    case isTrue hcond =>
      refine ⟨?_, ?_, by simp [hne]⟩
      · rw [partsLen_reverse, partsLen_cons]
        omega
      · simp only [List.length_reverse, List.length_cons]
        omega
    case isFalse hcond =>
      have hadd : cur + additionLen i d ≤ max_length := by
        rcases Nat.lt_or_ge max_length (cur + additionLen i d) with hlt | hle
        · exact absurd ⟨by simpa [additionLen] using hlt, hne⟩ hcond
        · simpa [additionLen] using hle
      have hpart : (docHeaderStr i d ++ stripStr d.page_content).data.length =
          additionLen i d := by
        rw [String.data_append, List.length_append]; rfl
      obtain ⟨h1, h2, h3⟩ := ih (i + 1) (cur + additionLen i d)
        ((docHeaderStr i d ++ stripStr d.page_content) :: parts) hadd (by simp)
      refine ⟨?_, ?_, h3⟩
      · refine h1.trans ?_
        rw [partsLen_cons, hpart]
        omega
      · refine h2.trans ?_
        simp only [List.length_cons]
        omega

theorem formatDocsLoop_over (max_length : Nat) (ds : List Doc) (i cur : Nat)
    (parts : List String) (hne : parts ≠ []) (hover : max_length < cur) :
    partsLen (formatDocsLoop max_length ds i cur parts) ≤
      partsLen parts + truncationMarker.data.length ∧
    (formatDocsLoop max_length ds i cur parts).length ≤ parts.length + 1 ∧
    formatDocsLoop max_length ds i cur parts ≠ [] := by
  cases ds with
  | nil =>
    simp only [formatDocsLoop]
    exact ⟨le_of_eq (partsLen_reverse parts) |>.trans (by omega), by simp, by simp [hne]⟩
  | cons d ds =>
    simp only [formatDocsLoop]
    rw [if_pos ⟨by omega, hne⟩]
    refine ⟨?_, ?_, by simp [hne]⟩
    · rw [partsLen_reverse, partsLen_cons]
      omega
    · simp

/-- Claim C4, amended: the assembled context string is at most maxChars plus
one truncation marker plus one over-budget first chunk plus one joining
newline per retrieved chunk - the final newline join inserts separators that
the running total of the loop never counts, so the bound must include the
chunk count. -/
theorem c4_context_length_amended (documents : List Doc) (max_length : Nat) :
    (format_documents_for_context documents max_length).data.length ≤
      max_length + truncationMarker.data.length + firstSlack documents max_length +
        documents.length := by
  cases documents with
  | nil =>
    have h28 : (format_documents_for_context [] max_length).data.length = 28 := rfl
    have hm : truncationMarker.data.length = 61 := rfl
    simp only [firstSlack, List.length_nil]
    omega
  | cons d ds =>
    have hstep : formatDocsLoop max_length (d :: ds) 0 0 [] =
        formatDocsLoop max_length ds 1 (additionLen 0 d)
          [docHeaderStr 0 d ++ stripStr d.page_content] := by
      simp only [formatDocsLoop]
      rw [if_neg (fun hh => hh.2 rfl)]
      simp only [Nat.zero_add]
      rfl
    have hout : format_documents_for_context (d :: ds) max_length =
        joinNl (formatDocsLoop max_length ds 1 (additionLen 0 d)
          [docHeaderStr 0 d ++ stripStr d.page_content]) := by
      unfold format_documents_for_context
      rw [if_neg (by simp), hstep]
    rw [hout]
    have hp : partsLen [docHeaderStr 0 d ++ stripStr d.page_content] =
        additionLen 0 d := by
      rw [partsLen_cons, strLen_append]
      simp [partsLen, additionLen]
    rcases Nat.lt_or_ge max_length (additionLen 0 d) with hlt | hle
    · obtain ⟨h1, h2, h3⟩ := formatDocsLoop_over max_length ds 1 (additionLen 0 d)
        [docHeaderStr 0 d ++ stripStr d.page_content] (by simp) hlt
      have hj := joinNl_length _ h3
      have hslack : firstSlack (d :: ds) max_length = additionLen 0 d := by
        simp only [firstSlack]
        rw [if_pos hlt]
      rw [hslack]
      simp only [List.length_cons, List.length_nil] at h2 ⊢
      omega
    · obtain ⟨h1, h2, h3⟩ := formatDocsLoop_budget max_length ds 1 (additionLen 0 d)
        [docHeaderStr 0 d ++ stripStr d.page_content] hle (by simp)
      have hj := joinNl_length _ h3
      have hslack : firstSlack (d :: ds) max_length = 0 := by
        simp only [firstSlack]
        rw [if_neg (by omega)]
      rw [hslack]
      simp only [List.length_cons, List.length_nil] at h2 ⊢
      omega

/-- Claim C4, as stated, fails on the code: with a budget of 0 and two
empty-content chunks, the first (over-budget) chunk is included and the
truncation marker follows, but the newline separator the join inserts
between them is never counted, so the context is one character longer than
maxChars plus the truncation marker plus the over-budget first chunk. -/
theorem c4_separators_cex :
    ¬ ((format_documents_for_context [emptyDoc, emptyDoc] 0).data.length ≤
      0 + truncationMarker.data.length + additionLen 0 emptyDoc) := by decide
